import Mathlib

/-!
Shallow embedding of the settings manager in `src/settings.c` (the
context-based generation: `SettingsContext` API).  The flash region is
modelled at record granularity: a `Flash` maps a record index to the
`SettingsConfigEntry` whose bytes start at `index * sizeof(SettingsConfigEntry)`
inside the region.  C strings (the fixed `key` / `value` buffers) are modelled
as the `List Char` of bytes up to the first NUL.  Machine integers are `Nat`
with explicit `% 2 ^ w` where overflow matters.  A NULL `SettingsContext *`
is modelled as `none`; reaching an unguarded dereference of a NULL context is
modelled as the result `none` (undefined behaviour).  Memory allocation is
assumed to succeed.
-/

namespace RPSettings

/-- `SETTINGS_MAX_KEY_LENGTH` from settings.h. -/
def SETTINGS_MAX_KEY_LENGTH : Nat := 30

/-- `SETTINGS_MAX_VALUE_LENGTH` from settings.h. -/
def SETTINGS_MAX_VALUE_LENGTH : Nat := 96

/-- `SETTINGS_MAGICVERSION_KEY` from settings.h, as a character list. -/
def SETTINGS_MAGICVERSION_KEY : List Char := "MAGICVERSION".data

/-- `SETTINGS_FLASH_PAGE_SIZE` from settings.h. -/
def SETTINGS_FLASH_PAGE_SIZE : Nat := 4096

/-- `SETTINGS_DEFAULT_FLASH_SIZE` from settings.h. -/
def SETTINGS_DEFAULT_FLASH_SIZE : Nat := 4096

/-- `SETTINGS_TYPE_INT` tag value. -/
def SETTINGS_TYPE_INT : Nat := 0

/-- `SETTINGS_TYPE_STRING` tag value. -/
def SETTINGS_TYPE_STRING : Nat := 1

/-- `SETTINGS_TYPE_BOOL` tag value. -/
def SETTINGS_TYPE_BOOL : Nat := 2

/-- `sizeof(SettingsConfigEntry)`: key capacity + type tag + value capacity.
settings.h documents the record as key 30 bytes, 2-byte type tag, value 96
bytes, summing to 128 so that 4096-byte pages hold whole records.  Compiler
padding is not modelled. -/
def entrySize : Nat := 128

/-- One configuration record (`SettingsConfigEntry`).  `dataType` is kept as a
raw tag (`memcpy` from flash can produce any value, not only 0/1/2). -/
structure SettingsConfigEntry where
  key : List Char
  dataType : Nat
  value : List Char
deriving DecidableEq, Repr

/-- `ConfigData`: the in-memory table.  `entries = none` models a freed /
NULL entry buffer; the live count is the length of the list when present
(the C `count` field equals that length on every reachable state). -/
structure ConfigData where
  magic : Nat
  entries : Option (List SettingsConfigEntry)
deriving DecidableEq, Repr

/-- `SettingsContext` from settings.h. -/
structure SettingsContext where
  configData : ConfigData
  flashSettingsSize : Nat
  flashSettingsOffset : Nat
deriving DecidableEq, Repr

/-- The flash region, at record granularity: record index ↦ stored record. -/
def Flash : Type := Nat → SettingsConfigEntry

/-- An erased record: flash erase leaves every byte 0xFF, so the key is 30
0xFF bytes (non-empty, invalid format), the tag is 0xFFFF… and the value is
96 0xFF bytes. -/
def erasedEntry : SettingsConfigEntry :=
  { key := List.replicate 30 (Char.ofNat 255)
    dataType := 4294967295
    value := List.replicate 96 (Char.ofNat 255) }

/-- A fully erased flash region (result of `flash_range_erase`). -/
def flashAllErased : Flash := fun _ => erasedEntry

/-- `isupper(c) || isdigit(c) || c == '_'` in the C locale. -/
def isValidKeyChar (c : Char) : Bool :=
  (('A' ≤ c) && (c ≤ 'Z')) || (('0' ≤ c) && (c ≤ '9')) || (c == '_')

/-- `checkKeyFormat` from settings.c: `-1` if the key is empty or contains a
character that is not an uppercase letter, a digit, or an underscore, else
`0`. -/
def checkKeyFormat (key : List Char) : Int :=
  if key.isEmpty then -1
  else if key.all isValidKeyChar then 0 else -1

/-- `checkTypeFormat` from settings.c: `0` iff the tag is one of
INT / STRING / BOOL. -/
def checkTypeFormat (t : Nat) : Int :=
  if t == SETTINGS_TYPE_INT || t == SETTINGS_TYPE_STRING || t == SETTINGS_TYPE_BOOL
  then 0 else -1

/-- `strncmp(a, b, SETTINGS_MAX_KEY_LENGTH) == 0` for two NUL-terminated
strings stored in the 30-byte key buffers: the first 30 characters agree. -/
def keyMatch (a b : List Char) : Bool :=
  a.take SETTINGS_MAX_KEY_LENGTH == b.take SETTINGS_MAX_KEY_LENGTH

/-- The in-place overwrite performed by the load-merge scan: replace the
first table entry whose key matches the record's key (settings.c lines
556-562); if no key matches, the table is unchanged. -/
def replaceFirstMatch : List SettingsConfigEntry → SettingsConfigEntry →
    List SettingsConfigEntry
  | [], _ => []
  | t :: ts, e =>
    if keyMatch t.key e.key then e :: ts else t :: replaceFirstMatch ts e

/-- The lookup loop shared by `settings_find_entry` and
`settingsUpdateEntry`: first entry whose key buffer matches. -/
def findEntryList : List SettingsConfigEntry → List Char →
    Option SettingsConfigEntry
  | [], _ => none
  | e :: es, key => if keyMatch e.key key then some e else findEntryList es key

/-- `isspace` in the C locale. -/
def isSpaceChar (c : Char) : Bool :=
  c == ' ' || c == '\t' || c == '\n' || (c == Char.ofNat 11) ||
  (c == Char.ofNat 12) || c == '\r'

/-- Accumulate the leading decimal digits of a string (helper for
`strtoul10`). -/
def digitsVal : List Char → Nat → Nat
  | [], acc => acc
  | c :: cs, acc =>
    if ('0' ≤ c) && (c ≤ '9') then digitsVal cs (acc * 10 + (c.toNat - 48))
    else acc

/-- `ULONG_MAX` on the 32-bit target. -/
def ULONG_MAX : Nat := 2 ^ 32 - 1

/-- `(uint32_t) strtoul(s, NULL, 10)` on the 32-bit target: skip C
whitespace, accept one optional sign, convert the leading decimal digits,
clamp out-of-range magnitudes to `ULONG_MAX`, negate in the unsigned type
for a minus sign; no digits yields 0. -/
def strtoul10 (s : List Char) : Nat :=
  let s1 := s.dropWhile isSpaceChar
  match s1 with
  | '-' :: rest => (2 ^ 32 - min (digitsVal rest 0) ULONG_MAX) % 2 ^ 32
  | '+' :: rest => min (digitsVal rest 0) ULONG_MAX
  | _ => min (digitsVal s1 0) ULONG_MAX

/-- `snprintf(buf, n, "%lu", v)` for `v < 2^32`: the decimal digits of `v`. -/
def decimalDigits (n : Nat) : List Char := (Nat.repr n).data

/-- `settingsLoadDefaultEntries` from settings.c: copy the given entries
into a fresh table in order, stopping at the first empty key, skipping (with
a warning only) entries with an invalid type or key format. -/
def settingsLoadDefaultEntries : List SettingsConfigEntry →
    List SettingsConfigEntry
  | [] => []
  | e :: rest =>
    if e.key.isEmpty then []
    else if checkTypeFormat e.dataType != 0 then settingsLoadDefaultEntries rest
    else if checkKeyFormat e.key != 0 then settingsLoadDefaultEntries rest
    else e :: settingsLoadDefaultEntries rest

/-- The `while (count < numEntries)` scan of `settingsLoadAllEntries`:
read the record at `idx`, stop on an empty key, invalid key format or
invalid type format, otherwise overwrite the matching table entry and
continue; `fuel` is `numEntries - count`. -/
def scanFlashEntries (flash : Flash) :
    Nat → Nat → List SettingsConfigEntry → List SettingsConfigEntry
  | 0, _, table => table
  | fuel + 1, idx, table =>
    let entry := flash idx
    if entry.key.isEmpty then table
    else if checkKeyFormat entry.key != 0 then table
    else if checkTypeFormat entry.dataType != 0 then table
    else scanFlashEntries flash fuel (idx + 1) (replaceFirstMatch table entry)

/-- `settingsLoadAllEntries` from settings.c: load the defaults, read the
textual magic from the first record's value field, return `-1` (defaults
kept) when it does not parse to the context's magic, otherwise merge the
scanned records over the defaults.  `maxEntries` is passed but unused, as in
the source. -/
def settingsLoadAllEntries (magic : Nat) (flash : Flash)
    (entries : List SettingsConfigEntry) (maxEntries : Nat) :
    Int × List SettingsConfigEntry :=
  let table := settingsLoadDefaultEntries entries
  let storedMagic := strtoul10 ((flash 0).value.take SETTINGS_MAX_VALUE_LENGTH)
  if storedMagic != magic then (-1, table)
  else (0, scanFlashEntries flash entries.length 0 table)

/-- `(uint32_t)magic << 16 | version` for `uint16_t` arguments. -/
def settingsHeaderCode (magic version : Nat) : Nat :=
  (magic % 2 ^ 16) * 2 ^ 16 + version % 2 ^ 16

/-- The reserved `MAGICVERSION` sentinel entry built by `settings_init`:
type INT, value the decimal text of the header code (`strncpy` caps it at
`SETTINGS_MAX_VALUE_LENGTH - 1` characters). -/
def sentinelEntry (headerCode : Nat) : SettingsConfigEntry :=
  { key := SETTINGS_MAGICVERSION_KEY
    dataType := SETTINGS_TYPE_INT
    value := (decimalDigits headerCode).take (SETTINGS_MAX_VALUE_LENGTH - 1) }

/-- `settings_init` from settings.c, assuming its `assert`s hold and
`malloc` succeeds: store the geometry, build the header code and the
augmented default table `[sentinel, ...defaults]`, delegate to
`settingsLoadAllEntries`, and return the context together with the entry
count on success or the load error. -/
def settings_init (defaultEntries : List SettingsConfigEntry)
    (flashOffset flashSize magic version : Nat) (flash : Flash) :
    SettingsContext × Int :=
  let maxEntries := flashSize / entrySize
  let headerCode := settingsHeaderCode magic version
  let defaultEntriesWithMagic := sentinelEntry headerCode :: defaultEntries
  let loaded := settingsLoadAllEntries headerCode flash defaultEntriesWithMagic
    maxEntries
  let ctx : SettingsContext :=
    { configData := { magic := headerCode, entries := some loaded.2 }
      flashSettingsSize := flashSize
      flashSettingsOffset := flashOffset }
  (ctx, if loaded.1 == 0 then (loaded.2.length : Int) else loaded.1)

/-- `settings_deinit` from settings.c: `-1` on a NULL context; otherwise
free the entry buffer, zero the count and reset the geometry. -/
def settings_deinit (octx : Option SettingsContext) :
    Int × Option SettingsContext :=
  match octx with
  | none => (-1, none)
  | some ctx =>
    (0, some { configData := { magic := ctx.configData.magic, entries := none }
               flashSettingsSize := SETTINGS_DEFAULT_FLASH_SIZE
               flashSettingsOffset := 0 })

/-- `settings_save` from settings.c: `-1` on a NULL context; `-1` when the
live entries exceed the region; otherwise erase the region and program the
whole entry buffer into it.  `heapGarbage` models the uninitialised tail of
the `malloc`ed buffer beyond the live entries, which is programmed as well;
`disable_interrupts` only controls interrupt masking and does not affect the
modelled state. -/
def settings_save (octx : Option SettingsContext)
    (disable_interrupts : Bool) (flash : Flash) (heapGarbage : Flash) :
    Int × Flash :=
  match octx with
  | none => (-1, flash)
  | some ctx =>
    let es := ctx.configData.entries.getD []
    if es.length * entrySize > ctx.flashSettingsSize then (-1, flash)
    else (0, fun i => if i < es.length then es.getD i erasedEntry
                      else heapGarbage i)

/-- `settings_erase` from settings.c: `-1` on a NULL context; otherwise
erase the flash region, free the entry buffer if still allocated (guarded,
so a second erase performs no invalid release) and zero the count. -/
def settings_erase (octx : Option SettingsContext) (flash : Flash) :
    Int × Option SettingsContext × Flash :=
  match octx with
  | none => (-1, none, flash)
  | some ctx =>
    (0,
     some { configData := { magic := ctx.configData.magic, entries := none }
            flashSettingsSize := ctx.flashSettingsSize
            flashSettingsOffset := ctx.flashSettingsOffset },
     flashAllErased)

/-- `settings_find_entry` from settings.c: NULL on a NULL context or an
invalid key format, otherwise the first entry whose key matches. -/
def settings_find_entry (octx : Option SettingsContext) (key : List Char) :
    Option SettingsConfigEntry :=
  match octx with
  | none => none
  | some ctx =>
    if checkKeyFormat key != 0 then none
    else findEntryList (ctx.configData.entries.getD []) key

/-- The update loop of `settingsUpdateEntry`: overwrite the type tag and the
(truncated, NUL-terminated) value of the first entry whose key matches;
`-1` and an unchanged table when no key matches. -/
def updateEntryInTable (key : List Char) (dataType : Nat) (value : List Char) :
    List SettingsConfigEntry → Int × List SettingsConfigEntry
  | [] => (-1, [])
  | e :: es =>
    if keyMatch e.key key then
      (0, { e with dataType := dataType
                   value := value.take (SETTINGS_MAX_VALUE_LENGTH - 1) } :: es)
    else
      let rest := updateEntryInTable key dataType value es
      (rest.1, e :: rest.2)

/-- `settingsUpdateEntry` from settings.c: validate the key, then the type,
then walk the table of the context.  The context is dereferenced only after
both checks; there is no NULL guard, so a NULL context with a well-formed
key reaches undefined behaviour, modelled as `none`. -/
def settingsUpdateEntry (octx : Option SettingsContext) (key : List Char)
    (dataType : Nat) (value : List Char) :
    Option (Int × Option SettingsContext) :=
  if checkKeyFormat key != 0 then some (-1, octx)
  else if checkTypeFormat dataType != 0 then some (-1, octx)
  else
    match octx with
    | none => none
    | some ctx =>
      match ctx.configData.entries with
      | none => some (-1, some ctx)
      | some es =>
        let p := updateEntryInTable key dataType value es
        some (p.1,
              some { ctx with
                     configData := { magic := ctx.configData.magic
                                     entries := some p.2 } })

/-- `settings_put_bool` from settings.c. -/
def settings_put_bool (octx : Option SettingsContext) (key : List Char)
    (value : Bool) : Option (Int × Option SettingsContext) :=
  settingsUpdateEntry octx key SETTINGS_TYPE_BOOL
    (if value then "true".data else "false".data)

/-- `settings_put_string` from settings.c: `-1` on a NULL value (before any
other check), otherwise copy the value truncated to the buffer and update. -/
def settings_put_string (octx : Option SettingsContext) (key : List Char)
    (value : Option (List Char)) : Option (Int × Option SettingsContext) :=
  match value with
  | none => some (-1, octx)
  | some v =>
    settingsUpdateEntry octx key SETTINGS_TYPE_STRING
      (v.take (SETTINGS_MAX_VALUE_LENGTH - 1))

/-- `snprintf(buf, 96, "%d", value)` for a 32-bit int: sign + decimal
digits (never truncated at width 96). -/
def intDecimal (z : Int) : List Char := (Int.repr z).data

/-- `settings_put_integer` from settings.c. -/
def settings_put_integer (octx : Option SettingsContext) (key : List Char)
    (value : Int) : Option (Int × Option SettingsContext) :=
  settingsUpdateEntry octx key SETTINGS_TYPE_INT (intDecimal value)

/-- A record passes the scan's per-record checks (the negation of the three
termination conditions of the load-merge loop). -/
def validRecordB (e : SettingsConfigEntry) : Bool :=
  !e.key.isEmpty && checkKeyFormat e.key == 0 && checkTypeFormat e.dataType == 0

/-- A table entry that fits the C buffers and passes both format checks:
NUL-terminated key in 30 bytes, NUL-terminated value in 96 bytes, valid key
and type formats. -/
def validEntryB (e : SettingsConfigEntry) : Bool :=
  checkKeyFormat e.key == 0 && checkTypeFormat e.dataType == 0 &&
  decide (e.key.length ≤ SETTINGS_MAX_KEY_LENGTH - 1) &&
  decide (e.value.length ≤ SETTINGS_MAX_VALUE_LENGTH - 1)

/-- No entry of the list has a key buffer matching `k`. -/
def noKeyClash (k : List Char) (l : List SettingsConfigEntry) : Bool :=
  l.all fun e => !keyMatch e.key k

/-- The keys of the list are pairwise distinct as key buffers. -/
def distinctKeys : List SettingsConfigEntry → Bool
  | [] => true
  | e :: rest => noKeyClash e.key rest && distinctKeys rest

/-- A valid default table in the sense of the data model: every entry valid,
keys pairwise distinct, and no key clashing with the reserved sentinel key. -/
def validDefaultTable (defaults : List SettingsConfigEntry) : Bool :=
  defaults.all validEntryB && distinctKeys defaults &&
  noKeyClash SETTINGS_MAGICVERSION_KEY defaults

/-- The records the load-merge loop reads: `fuel` consecutive records of the
region starting at record index `idx`. -/
def recordsOf (flash : Flash) (fuel idx : Nat) : List SettingsConfigEntry :=
  (List.range fuel).map fun j => flash (idx + j)

/-- List-level restatement of the load-merge scan loop, recursing on the
record list instead of fuel plus a record index. -/
def scanList : List SettingsConfigEntry → List SettingsConfigEntry →
    List SettingsConfigEntry
  | [], table => table
  | r :: rs, table =>
    if r.key.isEmpty then table
    else if checkKeyFormat r.key != 0 then table
    else if checkTypeFormat r.dataType != 0 then table
    else scanList rs (replaceFirstMatch table r)

/-- The type column printed by `settings_print`. -/
def typeLabel (t : Nat) : List Char :=
  if t == SETTINGS_TYPE_INT then "INT".data
  else if t == SETTINGS_TYPE_STRING then "STR".data
  else if t == SETTINGS_TYPE_BOOL then "BOOL".data
  else "UNK".data

/-- `settings_print` from settings.c, modelled as the rendered output:
nothing at all on a NULL context (the guard returns immediately), otherwise
one `KEY (TYPE): value` line per live entry.  The 2048-byte output budget
is not modelled. -/
def settings_print (octx : Option SettingsContext) : List Char :=
  match octx with
  | none => []
  | some ctx =>
    (ctx.configData.entries.getD []).foldl
      (fun acc e =>
        acc ++ e.key ++ " (".data ++ typeLabel e.dataType ++ "): ".data ++
          e.value ++ "\n".data)
      []

/-- Concrete application key `"TEST1"`. -/
def keyTEST1 : List Char := "TEST1".data

/-- Concrete default entry `("TEST1", String, "X")`. -/
def entryTEST1 : SettingsConfigEntry := ⟨"TEST1".data, 1, "X".data⟩

/-- Concrete default entry `("TEST2", Bool, "false")`. -/
def entryTEST2 : SettingsConfigEntry := ⟨"TEST2".data, 2, "false".data⟩

/-- A region whose first record's value parses to header code 65537
(magic 1, version 1), whose second record hijacks the reserved sentinel key
with a value that does not re-parse to the header code, and whose third
record persists a value for `TEST1`. -/
def hostileFlash : Flash := fun i =>
  if i == 0 then ⟨"A".data, 0, "65537".data⟩
  else if i == 1 then ⟨"MAGICVERSION".data, 0, "999".data⟩
  else if i == 2 then ⟨"TEST1".data, 1, "PERSISTED".data⟩
  else erasedEntry

/-- Context produced by `settings_init` on `hostileFlash` with defaults
`[TEST1, TEST2]`, magic 1, version 1, region 4096 at offset 0. -/
def hostileCtx : SettingsContext :=
  (settings_init [entryTEST1, entryTEST2] 0 4096 1 1 hostileFlash).1

/-- `settings_save` of `hostileCtx` over an erased region. -/
def hostileSaved : Int × Flash :=
  settings_save (some hostileCtx) true flashAllErased flashAllErased

/-- Context produced by a fresh `settings_init` with identical parameters on
the region written by `hostileSaved`. -/
def hostileCtx2 : SettingsContext :=
  (settings_init [entryTEST1, entryTEST2] 0 4096 1 1 hostileSaved.2).1

/-- A region with a correct header record followed by two validly formatted
records for the same key `TEST1`, carrying values "1" and then "2". -/
def duplicateKeyFlash : Flash := fun i =>
  if i == 0 then ⟨"MAGICVERSION".data, 0, "65537".data⟩
  else if i == 1 then ⟨"TEST1".data, 1, "1".data⟩
  else if i == 2 then ⟨"TEST1".data, 1, "2".data⟩
  else erasedEntry

/-- A region with a correct header record and a persisted record for `TEST1`
at record index 1 (the `defaultEntryCount + 1`-th scanned record when there
is a single default entry). -/
def secondRecordFlash : Flash := fun i =>
  if i == 0 then ⟨"MAGICVERSION".data, 0, "65537".data⟩
  else if i == 1 then ⟨"TEST1".data, 1, "7".data⟩
  else erasedEntry

/-- Like `secondRecordFlash` but with the region erased from record index 1
on; it agrees with `secondRecordFlash` on record index 0. -/
def headerOnlyFlash : Flash := fun i =>
  if i == 0 then ⟨"MAGICVERSION".data, 0, "65537".data⟩
  else erasedEntry

/-- A saved table used to witness the round-trip theorem: the sentinel for
header code 65537 followed by an updated `TEST2` entry. -/
def roundtripTable : List SettingsConfigEntry :=
  [sentinelEntry 65537, ⟨"TEST1".data, 1, "X".data⟩,
   ⟨"TEST2".data, 2, "true".data⟩]

/-- The context holding `roundtripTable` at the moment of the save. -/
def roundtripCtx : SettingsContext :=
  { configData := { magic := 65537, entries := some roundtripTable }
    flashSettingsSize := 4096
    flashSettingsOffset := 0 }

/-! ## Basic lemmas about keys and format checks -/

/-- `keyMatch` unfolds to equality of the 30-byte key prefixes. -/
theorem keyMatch_iff {a b : List Char} :
    keyMatch a b = true ↔
      a.take SETTINGS_MAX_KEY_LENGTH = b.take SETTINGS_MAX_KEY_LENGTH := by
  simp [keyMatch]

/-- `keyMatch` is reflexive. -/
theorem keyMatch_refl (a : List Char) : keyMatch a a = true := by
  simp [keyMatch]

/-- `keyMatch` is symmetric. -/
theorem keyMatch_symm (a b : List Char) : keyMatch a b = keyMatch b a := by
  unfold keyMatch
  by_cases h : a.take SETTINGS_MAX_KEY_LENGTH = b.take SETTINGS_MAX_KEY_LENGTH
  · rw [h]
  · rw [beq_eq_false_iff_ne.mpr h, beq_eq_false_iff_ne.mpr (Ne.symm h)]

/-- `keyMatch` is transitive. -/
theorem keyMatch_trans {a b c : List Char} (h1 : keyMatch a b = true)
    (h2 : keyMatch b c = true) : keyMatch a c = true :=
  keyMatch_iff.mpr ((keyMatch_iff.mp h1).trans (keyMatch_iff.mp h2))

/-- A key passing the format check is non-empty. -/
theorem checkKeyFormat_nonempty {k : List Char} (h : checkKeyFormat k = 0) :
    k.isEmpty = false := by
  by_cases he : k.isEmpty
  · simp [checkKeyFormat, he] at h
  · simpa using he

/-- A valid table entry passes the per-record scan checks. -/
theorem validRecordB_of_validEntryB {e : SettingsConfigEntry}
    (h : validEntryB e = true) : validRecordB e = true := by
  simp only [validEntryB, Bool.and_eq_true, beq_iff_eq, decide_eq_true_eq] at h
  simp [validRecordB, h.1.1.1, h.1.1.2, checkKeyFormat_nonempty h.1.1.1]

/-- The sentinel entry is a valid table entry, for every header code. -/
theorem validEntryB_sentinelEntry (hc : Nat) :
    validEntryB (sentinelEntry hc) = true := by
  have hlen : ((decimalDigits hc).take (SETTINGS_MAX_VALUE_LENGTH - 1)).length ≤
      SETTINGS_MAX_VALUE_LENGTH - 1 := List.length_take_le _ _
  simp [validEntryB, sentinelEntry, hlen]
  decide

/-! ## The load-merge scan as a list recursion -/

/-- One step of the list-level scan: recurse on a record passing the checks,
stop otherwise. -/
theorem scanList_cons (r : SettingsConfigEntry) (rs table) :
    scanList (r :: rs) table =
      if validRecordB r = true then scanList rs (replaceFirstMatch table r)
      else table := by
  by_cases h1 : r.key.isEmpty <;>
    by_cases h2 : checkKeyFormat r.key = 0 <;>
    by_cases h3 : checkTypeFormat r.dataType = 0 <;>
    simp [scanList, validRecordB, h1, h2, h3]

/-- One step of the fuel-indexed scan loop. -/
theorem scanFlashEntries_succ (flash : Flash) (fuel idx : Nat) (table) :
    scanFlashEntries flash (fuel + 1) idx table =
      if validRecordB (flash idx) = true
      then scanFlashEntries flash fuel (idx + 1)
        (replaceFirstMatch table (flash idx))
      else table := by
  by_cases h1 : (flash idx).key.isEmpty <;>
    by_cases h2 : checkKeyFormat (flash idx).key = 0 <;>
    by_cases h3 : checkTypeFormat (flash idx).dataType = 0 <;>
    simp [scanFlashEntries, validRecordB, h1, h2, h3]

/-- `recordsOf` of one more record. -/
theorem recordsOf_succ (flash : Flash) (fuel idx : Nat) :
    recordsOf flash (fuel + 1) idx =
      flash idx :: recordsOf flash fuel (idx + 1) := by
  have harg : ∀ j : Nat, flash (idx + Nat.succ j) = flash (idx + 1 + j) :=
    fun j => congrArg flash (by omega)
  simp [recordsOf, List.range_succ_eq_map, List.map_map, Function.comp, harg]

/-- The fuel-indexed scan loop equals the list-level scan over the records it
can read. -/
theorem scanFlashEntries_eq_scanList (flash : Flash) : ∀ (fuel idx : Nat) table,
    scanFlashEntries flash fuel idx table =
      scanList (recordsOf flash fuel idx) table := by
  intro fuel
  induction fuel with
  | zero => intro idx table; simp [scanFlashEntries, recordsOf, scanList]
  | succ n ih =>
    intro idx table
    rw [recordsOf_succ, scanList_cons, scanFlashEntries_succ]
    by_cases h : validRecordB (flash idx) = true
    · simp [h, ih]
    · simp [h]

/-- Reading back a list through `getD` over its index range reproduces it. -/
theorem map_range_getD (es : List SettingsConfigEntry) :
    ((List.range es.length).map fun j => es.getD j erasedEntry) = es := by
  induction es with
  | nil => simp
  | cons e es ih =>
    simp only [List.length_cons, List.range_succ_eq_map, List.map_cons,
      List.map_map]
    have h1 : ((fun j => (e :: es).getD j erasedEntry) ∘ Nat.succ) =
        (fun j => es.getD j erasedEntry) := rfl
    rw [h1, ih]
    rfl

/-- The records of a region written by `settings_save` are exactly the saved
entries, for the live range. -/
theorem recordsOf_saved (es : List SettingsConfigEntry) (garbage : Flash) :
    recordsOf
      (fun i => if i < es.length then es.getD i erasedEntry else garbage i)
      es.length 0 = es := by
  have : ∀ j ∈ List.range es.length,
      (fun i => if i < es.length then es.getD i erasedEntry else garbage i)
        (0 + j) = es.getD j erasedEntry := by
    intro j hj
    have hlt : j < es.length := List.mem_range.mp hj
    simp [Nat.zero_add, hlt]
  unfold recordsOf
  rw [List.map_congr_left this]
  exact map_range_getD es

/-- Loading an all-valid default list copies it verbatim. -/
theorem settingsLoadDefaultEntries_of_valid :
    ∀ (l : List SettingsConfigEntry), l.all validEntryB = true →
      settingsLoadDefaultEntries l = l := by
  intro l
  induction l with
  | nil => intro _; rfl
  | cons e es ih =>
    intro h
    simp only [List.all_cons, Bool.and_eq_true] at h
    obtain ⟨he, hes⟩ := h
    have hr := he
    simp only [validEntryB, Bool.and_eq_true, beq_iff_eq, decide_eq_true_eq]
      at hr
    simp [settingsLoadDefaultEntries, checkKeyFormat_nonempty hr.1.1.1,
      hr.1.1.1, hr.1.1.2, ih hes]

/-! ## Merging a saved table back over aligned defaults -/

/-- If no scanned record matches the head entry's key, the scan leaves the
head in place and acts on the tail. -/
theorem scanList_cons_nomatch :
    ∀ (rs : List SettingsConfigEntry) (h : SettingsConfigEntry) (t),
      (∀ r ∈ rs, keyMatch r.key h.key = false) →
      scanList rs (h :: t) = h :: scanList rs t := by
  intro rs
  induction rs with
  | nil => intro h t _; rfl
  | cons r rs ih =>
    intro h t hno
    rw [scanList_cons, scanList_cons]
    by_cases hv : validRecordB r = true
    · have hm : keyMatch h.key r.key = false := by
        rw [keyMatch_symm]; exact hno r (by simp)
      simp only [hv, if_true]
      rw [show replaceFirstMatch (h :: t) r =
            h :: replaceFirstMatch t r by simp [replaceFirstMatch, hm]]
      exact ih h (replaceFirstMatch t r) fun x hx => hno x (by simp [hx])
    · simp [hv]

/-- Scanning a record list whose keys coincide positionally with the table's
keys, with all records valid and the table keys pairwise distinct, rewrites
the table into exactly the record list.  This is the heart of the round-trip
property: the records written by `save` overwrite the freshly loaded
defaults slot by slot. -/
theorem scanList_saved :
    ∀ (es old : List SettingsConfigEntry),
      (es.map fun e => e.key) = (old.map fun e => e.key) →
      es.all validEntryB = true →
      distinctKeys old = true →
      scanList es old = es := by
  intro es
  induction es with
  | nil =>
    intro old hkeys _ _
    have : old = [] := by
      cases old with
      | nil => rfl
      | cons o os => simp at hkeys
    rw [this]; rfl
  | cons e es ih =>
    intro old hkeys hvalid hdist
    cases old with
    | nil => simp at hkeys
    | cons o os =>
      simp only [List.map_cons, List.cons.injEq] at hkeys
      obtain ⟨hke, hkes⟩ := hkeys
      simp only [List.all_cons, Bool.and_eq_true] at hvalid
      obtain ⟨hve, hves⟩ := hvalid
      simp only [distinctKeys, Bool.and_eq_true] at hdist
      obtain ⟨hno, hdos⟩ := hdist
      rw [scanList_cons]
      simp only [validRecordB_of_validEntryB hve, if_true]
      have hrepl : replaceFirstMatch (o :: os) e = e :: os := by
        have : keyMatch o.key e.key = true := by
          rw [hke]; exact keyMatch_refl _
        simp [replaceFirstMatch, this]
      rw [hrepl]
      have hnom : ∀ r ∈ es, keyMatch r.key e.key = false := by
        intro r hr
        have hrk : r.key ∈ os.map fun x => x.key := by
          rw [← hkes]; exact List.mem_map_of_mem _ hr
        obtain ⟨x, hx, hxk⟩ := List.mem_map.mp hrk
        have hxo : (!keyMatch x.key o.key) = true := by
          have := (List.all_eq_true.mp hno) x hx
          simpa using this
        rw [hke, ← hxk]
        simpa using hxo
      rw [scanList_cons_nomatch es e os hnom]
      rw [ih os hkes hves hdos]

/-- `settingsLoadAllEntries` over a region holding exactly the table `es`
whose keys align with the augmented defaults: the merge reproduces `es`. -/
theorem settingsLoadAllEntries_saved (defaults es : List SettingsConfigEntry)
    (hc maxEntries : Nat) (heapGarbage : Flash)
    (hvdef : validDefaultTable defaults = true)
    (hkeys : (es.map fun e => e.key) =
      ((sentinelEntry hc :: defaults).map fun e => e.key))
    (hvalid : es.all validEntryB = true)
    (hsent : strtoul10
      ((es.getD 0 erasedEntry).value.take SETTINGS_MAX_VALUE_LENGTH) = hc) :
    settingsLoadAllEntries hc
      (fun i => if i < es.length then es.getD i erasedEntry else heapGarbage i)
      (sentinelEntry hc :: defaults) maxEntries = (0, es) := by
  have hlen : es.length = defaults.length + 1 := by
    have := congrArg List.length hkeys
    simpa using this
  simp only [validDefaultTable, Bool.and_eq_true] at hvdef
  obtain ⟨⟨hall, hdist⟩, hclash⟩ := hvdef
  have hallaug : (sentinelEntry hc :: defaults).all validEntryB = true := by
    simp [List.all_cons, validEntryB_sentinelEntry, hall]
  have hdistaug : distinctKeys (sentinelEntry hc :: defaults) = true := by
    simp only [distinctKeys, Bool.and_eq_true]
    exact ⟨hclash, hdist⟩
  have hflash0 :
      (fun i => if i < es.length then es.getD i erasedEntry else heapGarbage i)
        0 = es.getD 0 erasedEntry := by
    simp [hlen]
  unfold settingsLoadAllEntries
  rw [hflash0, hsent]
  rw [if_neg (by simp)]
  rw [settingsLoadDefaultEntries_of_valid _ hallaug]
  rw [show (sentinelEntry hc :: defaults).length = es.length by simp [hlen]]
  rw [scanFlashEntries_eq_scanList, recordsOf_saved]
  rw [scanList_saved es (sentinelEntry hc :: defaults) hkeys hvalid hdistaug]

/-- Claim C1 (amended): saving an initialized context and re-initializing
with the same parameters from the written region reproduces the table and
hence the key-to-(type,value) mapping, for a valid default table, valid
geometry, and a context whose entries satisfy the invariants `settings_init`
establishes — in particular the sentinel's stored text still parses to the
header code. -/
theorem save_then_init_roundtrip
    (defaults es : List SettingsConfigEntry)
    (magic version flashOffset flashSize : Nat)
    (di : Bool) (flash heapGarbage : Flash) (ctx : SettingsContext)
    (hctx : ctx =
      { configData := { magic := settingsHeaderCode magic version
                        entries := some es }
        flashSettingsSize := flashSize
        flashSettingsOffset := flashOffset })
    (hvdef : validDefaultTable defaults = true)
    (hkeys : (es.map fun e => e.key) =
      ((sentinelEntry (settingsHeaderCode magic version) :: defaults).map
        fun e => e.key))
    (hvalid : es.all validEntryB = true)
    (hsent : strtoul10
        ((es.getD 0 erasedEntry).value.take SETTINGS_MAX_VALUE_LENGTH) =
      settingsHeaderCode magic version)
    (hgeom : defaults.length + 1 ≤ flashSize / entrySize) :
    (settings_save (some ctx) di flash heapGarbage).1 = 0 ∧
    (settings_init defaults flashOffset flashSize magic version
        (settings_save (some ctx) di flash heapGarbage).2).1.configData.entries
      = some es ∧
    ∀ k, settings_find_entry
        (some (settings_init defaults flashOffset flashSize magic version
          (settings_save (some ctx) di flash heapGarbage).2).1) k =
      settings_find_entry (some ctx) k := by
  subst hctx
  have hlen : es.length = defaults.length + 1 := by
    have := congrArg List.length hkeys
    simpa using this
  have hb : ¬ (es.length * entrySize > flashSize) := by
    have h1 : es.length ≤ flashSize / entrySize := by omega
    have h2 : es.length * entrySize ≤ flashSize :=
      (Nat.le_div_iff_mul_le (by decide : 0 < entrySize)).mp h1
    omega
  have hsave : settings_save
      (some { configData := { magic := settingsHeaderCode magic version
                              entries := some es }
              flashSettingsSize := flashSize
              flashSettingsOffset := flashOffset }) di flash heapGarbage =
      (0, fun i => if i < es.length then es.getD i erasedEntry
                   else heapGarbage i) := by
    simp [settings_save, hb]
  rw [hsave]
  have hload := settingsLoadAllEntries_saved defaults es
    (settingsHeaderCode magic version) (flashSize / entrySize) heapGarbage
    hvdef hkeys hvalid hsent
  have hinit : settings_init defaults flashOffset flashSize magic version
      (fun i => if i < es.length then es.getD i erasedEntry
                else heapGarbage i) =
      ({ configData := { magic := settingsHeaderCode magic version
                         entries := some es }
         flashSettingsSize := flashSize
         flashSettingsOffset := flashOffset }, (es.length : Int)) := by
    simp only [settings_init]
    rw [hload]
    simp
  rw [hinit]
  refine ⟨rfl, rfl, ?_⟩
  intro k
  rfl

/-! ## Header mismatch, return values, and the mutation API -/

/-- When the stored header text does not parse to the expected code, the
load keeps the freshly loaded defaults and reports `-1`. -/
theorem settingsLoadAllEntries_mismatch (magic : Nat) (flash : Flash)
    (entries : List SettingsConfigEntry) (maxEntries : Nat)
    (hmm : strtoul10 ((flash 0).value.take SETTINGS_MAX_VALUE_LENGTH) ≠
      magic) :
    settingsLoadAllEntries magic flash entries maxEntries =
      (-1, settingsLoadDefaultEntries entries) := by
  unfold settingsLoadAllEntries
  rw [if_pos (by simpa [bne_iff_ne] using hmm)]

/-- When the stored header text parses to the expected code, the load merges
the scanned records over the defaults and reports success. -/
theorem settingsLoadAllEntries_match (magic : Nat) (flash : Flash)
    (entries : List SettingsConfigEntry) (maxEntries : Nat)
    (hm : strtoul10 ((flash 0).value.take SETTINGS_MAX_VALUE_LENGTH) =
      magic) :
    settingsLoadAllEntries magic flash entries maxEntries =
      (0, scanFlashEntries flash entries.length 0
        (settingsLoadDefaultEntries entries)) := by
  unfold settingsLoadAllEntries
  rw [if_neg (by simp [hm])]

/-- Claim C3: when the region's stored header text does not parse to the
expected header code, initialization leaves the context holding exactly the
augmented compiled-in default table — the sentinel followed by the (valid)
defaults — untouched by the region's contents. -/
theorem header_mismatch_yields_defaults
    (defaults : List SettingsConfigEntry)
    (flashOffset flashSize magic version : Nat) (flash : Flash)
    (hmm : strtoul10 ((flash 0).value.take SETTINGS_MAX_VALUE_LENGTH) ≠
      settingsHeaderCode magic version)
    (hall : defaults.all validEntryB = true) :
    (settings_init defaults flashOffset flashSize magic version
      flash).1.configData.entries =
      some (sentinelEntry (settingsHeaderCode magic version) :: defaults) := by
  have hallaug :
      (sentinelEntry (settingsHeaderCode magic version) :: defaults).all
        validEntryB = true := by
    simp [List.all_cons, validEntryB_sentinelEntry, hall]
  simp only [settings_init]
  rw [settingsLoadAllEntries_mismatch _ _ _ _ hmm,
    settingsLoadDefaultEntries_of_valid _ hallaug]

/-- Claim C5 (amended): the return value of `settings_init` is the number of
live entries exactly when the stored header text parses to the expected
header code; a header mismatch still falls back to the defaults in the
context but is reported as `-1` instead of the informational count.
(Allocation is assumed to succeed.) -/
theorem settings_init_return_characterization
    (defaults : List SettingsConfigEntry)
    (flashOffset flashSize magic version : Nat) (flash : Flash) :
    (settings_init defaults flashOffset flashSize magic version flash).2 =
      if strtoul10 ((flash 0).value.take SETTINGS_MAX_VALUE_LENGTH) =
          settingsHeaderCode magic version
      then (((settings_init defaults flashOffset flashSize magic version
        flash).1.configData.entries.getD []).length : Int)
      else -1 := by
  by_cases h : strtoul10 ((flash 0).value.take SETTINGS_MAX_VALUE_LENGTH) =
      settingsHeaderCode magic version
  · rw [if_pos h]
    simp only [settings_init]
    rw [settingsLoadAllEntries_match _ _ _ _ h]
    simp
  · rw [if_neg h]
    simp only [settings_init]
    rw [settingsLoadAllEntries_mismatch _ _ _ _ h]
    simp

/-- The update loop fails with `-1` and returns the table unchanged when no
entry's key matches. -/
theorem updateEntryInTable_not_found (k : List Char) (ty : Nat)
    (val : List Char) :
    ∀ table : List SettingsConfigEntry,
      (table.all fun e => !keyMatch e.key k) = true →
      updateEntryInTable k ty val table = (-1, table) := by
  intro table
  induction table with
  | nil => intro _; rfl
  | cons e es ih =>
    intro h
    simp only [List.all_cons, Bool.and_eq_true, Bool.not_eq_true'] at h
    obtain ⟨he, hes⟩ := h
    simp only [updateEntryInTable, he, Bool.false_eq_true, if_false]
    rw [ih (by simpa [List.all_eq_true, Bool.not_eq_true'] using hes)]

/-- `settingsUpdateEntry` on a context lacking the key: `KeyNotFound` (-1)
and a completely unchanged context. -/
theorem settingsUpdateEntry_not_found (ctx : SettingsContext) (k : List Char)
    (ty : Nat) (val : List Char)
    (hk : checkKeyFormat k = 0) (hty : checkTypeFormat ty = 0)
    (habs : ((ctx.configData.entries.getD []).all
      fun e => !keyMatch e.key k) = true) :
    settingsUpdateEntry (some ctx) k ty val = some (-1, some ctx) := by
  obtain ⟨⟨m, ent⟩, fs, fo⟩ := ctx
  cases ent with
  | none => simp [settingsUpdateEntry, hk, hty]
  | some es =>
    have hupd := updateEntryInTable_not_found k ty val es (by simpa using habs)
    simp [settingsUpdateEntry, hk, hty, hupd]

/-- Claim C6: a put on a well-formed key absent from the table fails with
the `KeyNotFound` status `-1` and leaves the whole context unchanged; a put
never creates an entry. -/
theorem put_missing_key_not_found
    (ctx : SettingsContext) (k : List Char) (b : Bool) (v : List Char)
    (z : Int)
    (hk : checkKeyFormat k = 0)
    (habs : ((ctx.configData.entries.getD []).all
      fun e => !keyMatch e.key k) = true) :
    settings_put_bool (some ctx) k b = some (-1, some ctx) ∧
    settings_put_string (some ctx) k (some v) = some (-1, some ctx) ∧
    settings_put_integer (some ctx) k z = some (-1, some ctx) := by
  refine ⟨?_, ?_, ?_⟩
  · exact settingsUpdateEntry_not_found ctx k _ _ hk (by decide) habs
  · exact settingsUpdateEntry_not_found ctx k _ _ hk (by decide) habs
  · exact settingsUpdateEntry_not_found ctx k _ _ hk (by decide) habs

/-- Claim C8: an empty key, or a key with any character outside A–Z, 0–9,
`_`, is rejected: `find` returns NULL and every put fails with the invalid
key status `-1`, leaving the context unchanged. -/
theorem invalid_key_rejected
    (ctx : SettingsContext) (k : List Char) (b : Bool) (v : List Char)
    (z : Int)
    (hk : k = [] ∨ ∃ c ∈ k, isValidKeyChar c = false) :
    checkKeyFormat k = -1 ∧
    settings_find_entry (some ctx) k = none ∧
    settings_put_bool (some ctx) k b = some (-1, some ctx) ∧
    settings_put_string (some ctx) k (some v) = some (-1, some ctx) ∧
    settings_put_integer (some ctx) k z = some (-1, some ctx) := by
  have hck : checkKeyFormat k = -1 := by
    rcases hk with h | ⟨c, hc, hbad⟩
    · simp [checkKeyFormat, h]
    · have h1 : k.isEmpty = false := by
        cases k with
        | nil => cases hc
        | cons a as => rfl
      have h2 : k.all isValidKeyChar = false := by
        by_contra hcon
        have hall : k.all isValidKeyChar = true := by
          cases h : k.all isValidKeyChar
          · exact absurd h hcon
          · rfl
        have := List.all_eq_true.mp hall c hc
        rw [hbad] at this
        cases this
      simp [checkKeyFormat, h1, h2]
  refine ⟨hck, ?_, ?_, ?_, ?_⟩
  · simp [settings_find_entry, hck]
  · simp [settings_put_bool, settingsUpdateEntry, hck]
  · simp [settings_put_string, settingsUpdateEntry, hck]
  · simp [settings_put_integer, settingsUpdateEntry, hck]

/-- Claim C9: a second `settings_erase` without an intervening `init` is a
clean no-op — the guarded free releases nothing twice, the result is the
same already-empty context (NULL buffer, zero count) and status 0. -/
theorem settings_erase_idempotent (ctx : SettingsContext) (flash : Flash) :
    settings_erase (settings_erase (some ctx) flash).2.1
        (settings_erase (some ctx) flash).2.2 =
      settings_erase (some ctx) flash ∧
    (settings_erase (some ctx) flash).2.1 =
      some { configData := { magic := ctx.configData.magic, entries := none }
             flashSettingsSize := ctx.flashSettingsSize
             flashSettingsOffset := ctx.flashSettingsOffset } ∧
    (settings_erase (some ctx) flash).1 = 0 :=
  ⟨rfl, rfl, rfl⟩

/-- Claim C10: the NULL-context guards.  `save`, `erase` and `deinit` return
`-1`, `find` returns NULL and `print` renders nothing, all without touching
any state; the typed puts have no such guard — with a well-formed key they
reach the unguarded dereference (undefined behaviour, modelled as `none`). -/
theorem null_context_guards
    (di : Bool) (flash heapGarbage : Flash) (k : List Char) (b : Bool)
    (v : List Char) (z : Int)
    (hk : checkKeyFormat k = 0) :
    settings_save none di flash heapGarbage = (-1, flash) ∧
    settings_erase none flash = (-1, none, flash) ∧
    settings_deinit none = (-1, none) ∧
    settings_find_entry none k = none ∧
    settings_print none = [] ∧
    settings_put_bool none k b = none ∧
    settings_put_string none k (some v) = none ∧
    settings_put_integer none k z = none := by
  refine ⟨rfl, rfl, rfl, rfl, rfl, ?_, ?_, ?_⟩
  · simp [settings_put_bool, settingsUpdateEntry, hk]
    decide
  · simp [settings_put_string, settingsUpdateEntry, hk]
    decide
  · simp [settings_put_integer, settingsUpdateEntry, hk]
    decide

/-! ## The scan as a fold over the valid record prefix, and lookup lemmas -/

/-- The scan stops exactly at the first record failing the per-record
checks: it is the fold of the in-place overwrite over the longest valid
prefix of the records. -/
theorem scanList_eq_foldl :
    ∀ (rs : List SettingsConfigEntry) table,
      scanList rs table =
        (rs.takeWhile validRecordB).foldl replaceFirstMatch table := by
  intro rs
  induction rs with
  | nil => intro table; rfl
  | cons r rs ih =>
    intro table
    rw [scanList_cons]
    by_cases h : validRecordB r = true
    · rw [if_pos h,
        show (r :: rs).takeWhile validRecordB =
          r :: rs.takeWhile validRecordB by simp [List.takeWhile_cons, h],
        List.foldl_cons, ih]
    · rw [if_neg h,
        show (r :: rs).takeWhile validRecordB = [] by
          simp [List.takeWhile_cons, h]]
      rfl

/-- A record matching no table key leaves the table unchanged. -/
theorem replaceFirstMatch_no_key (e : SettingsConfigEntry) :
    ∀ table : List SettingsConfigEntry,
      (table.all fun t => !keyMatch t.key e.key) = true →
      replaceFirstMatch table e = table := by
  intro table
  induction table with
  | nil => intro _; rfl
  | cons h t ih =>
    intro hall
    simp only [List.all_cons, Bool.and_eq_true, Bool.not_eq_true'] at hall
    simp [replaceFirstMatch, hall.1, ih (by simpa [List.all_eq_true,
      Bool.not_eq_true'] using hall.2)]

/-- After overwriting with a record whose key matches `K`, the lookup for
`K` returns that record, provided some table entry's key matches `K`. -/
theorem findEntryList_replace_match (K : List Char)
    (r : SettingsConfigEntry) (hrK : keyMatch r.key K = true) :
    ∀ table, (∃ e ∈ table, keyMatch e.key K = true) →
      findEntryList (replaceFirstMatch table r) K = some r := by
  intro table
  induction table with
  | nil =>
    rintro ⟨e, he, -⟩
    cases he
  | cons h t ih =>
    rintro ⟨e, he, hek⟩
    have hKr : keyMatch K r.key = true := by rw [keyMatch_symm]; exact hrK
    by_cases hm : keyMatch h.key r.key = true
    · simp [replaceFirstMatch, hm, findEntryList, hrK]
    · have hhK : keyMatch h.key K = false := by
        cases hhK2 : keyMatch h.key K
        · rfl
        · exact absurd (keyMatch_trans hhK2 hKr) hm
      have hex2 : ∃ e2 ∈ t, keyMatch e2.key K = true := by
        rcases List.mem_cons.mp he with rfl | het
        · rw [hek] at hhK; cases hhK
        · exact ⟨e, het, hek⟩
      simp [replaceFirstMatch, hm, findEntryList, hhK, ih hex2]

/-- Overwriting with a record whose key does not match `K` leaves the
lookup for `K` unchanged. -/
theorem findEntryList_replace_nomatch (K : List Char)
    (r : SettingsConfigEntry) (hrK : keyMatch r.key K = false) :
    ∀ table, findEntryList (replaceFirstMatch table r) K =
      findEntryList table K := by
  intro table
  induction table with
  | nil => rfl
  | cons h t ih =>
    by_cases hm : keyMatch h.key r.key = true
    · have hhK : keyMatch h.key K = false := by
        cases hhK2 : keyMatch h.key K
        · rfl
        · have hrh : keyMatch r.key h.key = true := by
            rw [keyMatch_symm]; exact hm
          rw [keyMatch_trans hrh hhK2] at hrK
          cases hrK
      simp [replaceFirstMatch, hm, findEntryList, hrK, hhK]
    · cases hhK : keyMatch h.key K
      · simp [replaceFirstMatch, hm, findEntryList, hhK, ih]
      · simp [replaceFirstMatch, hm, findEntryList, hhK]

/-- Overwriting preserves the existence of a table entry matching `K`. -/
theorem exists_match_replace (K : List Char) (r : SettingsConfigEntry) :
    ∀ table, (∃ e ∈ table, keyMatch e.key K = true) →
      ∃ e ∈ replaceFirstMatch table r, keyMatch e.key K = true := by
  intro table
  induction table with
  | nil =>
    rintro ⟨e, he, -⟩
    cases he
  | cons h t ih =>
    rintro ⟨e, he, hek⟩
    by_cases hm : keyMatch h.key r.key = true
    · rcases List.mem_cons.mp he with rfl | het
      · refine ⟨r, ?_, keyMatch_trans (by rw [keyMatch_symm]; exact hm) hek⟩
        simp [replaceFirstMatch, hm]
      · refine ⟨e, ?_, hek⟩
        simp [replaceFirstMatch, hm, het]
    · rcases List.mem_cons.mp he with rfl | het
      · refine ⟨e, ?_, hek⟩
        simp [replaceFirstMatch, hm]
      · obtain ⟨e2, he2, hk2⟩ := ih ⟨e, het, hek⟩
        refine ⟨e2, ?_, hk2⟩
        simp [replaceFirstMatch, hm, he2]

/-- Folding records none of which matches `K` leaves the lookup for `K`
unchanged. -/
theorem findEntryList_foldl_nomatch (K : List Char) :
    ∀ (l : List SettingsConfigEntry) table,
      (∀ x ∈ l, keyMatch x.key K = false) →
      findEntryList (l.foldl replaceFirstMatch table) K =
        findEntryList table K := by
  intro l
  induction l with
  | nil => intro table _; rfl
  | cons r rs ih =>
    intro table h
    rw [List.foldl_cons,
      ih _ fun x hx => h x (List.mem_cons_of_mem _ hx),
      findEntryList_replace_nomatch K r (h r (List.mem_cons_self _ _)) table]

/-- Folding records preserves the existence of a table entry matching `K`. -/
theorem exists_match_foldl (K : List Char) :
    ∀ (l : List SettingsConfigEntry) table,
      (∃ e ∈ table, keyMatch e.key K = true) →
      ∃ e ∈ l.foldl replaceFirstMatch table, keyMatch e.key K = true := by
  intro l
  induction l with
  | nil => intro table hex; exact hex
  | cons r rs ih =>
    intro table hex
    rw [List.foldl_cons]
    exact ih _ (exists_match_replace K r table hex)

/-- Claim C2 (amended): when the stored header code matches, and the valid
record prefix contains a record `r` for key `K` with no later record for
`K`, and `K` is among the loaded defaults, the loaded table's entry for `K`
is exactly `r` — the last persisted record wins, regardless of the
default value. -/
theorem merge_last_persisted_record_wins
    (magic maxEntries : Nat) (flash : Flash)
    (entries : List SettingsConfigEntry) (K : List Char)
    (r : SettingsConfigEntry) (l1 l2 : List SettingsConfigEntry)
    (hmagic : strtoul10 ((flash 0).value.take SETTINGS_MAX_VALUE_LENGTH) =
      magic)
    (hsplit : (recordsOf flash entries.length 0).takeWhile validRecordB =
      l1 ++ r :: l2)
    (hrK : keyMatch r.key K = true)
    (hlast : ∀ x ∈ l2, keyMatch x.key K = false)
    (hdef : ∃ e ∈ settingsLoadDefaultEntries entries,
      keyMatch e.key K = true) :
    (settingsLoadAllEntries magic flash entries maxEntries).1 = 0 ∧
    findEntryList (settingsLoadAllEntries magic flash entries maxEntries).2 K
      = some r := by
  rw [settingsLoadAllEntries_match _ _ _ _ hmagic]
  refine ⟨rfl, ?_⟩
  rw [show ((0 : Int), scanFlashEntries flash entries.length 0
      (settingsLoadDefaultEntries entries)).2 =
      scanFlashEntries flash entries.length 0
        (settingsLoadDefaultEntries entries) from rfl]
  rw [scanFlashEntries_eq_scanList, scanList_eq_foldl, hsplit,
    List.foldl_append, List.foldl_cons]
  rw [findEntryList_foldl_nomatch K l2 _ hlast]
  exact findEntryList_replace_match K r hrK _
    (exists_match_foldl K l1 _ hdef)

/-- Claim C7 (amended): with a matching header code the load consumes at
most `defaultEntryCount + 1` records (the augmented table's size, sentinel
included), stopping exactly at the first record with an empty key, an
invalid key format or an invalid type format, and a validly scanned record
matching no table key is silently ignored. -/
theorem load_scan_bound_and_termination
    (defaults : List SettingsConfigEntry)
    (flashOffset flashSize magic version : Nat) (flash : Flash)
    (hmagic : strtoul10 ((flash 0).value.take SETTINGS_MAX_VALUE_LENGTH) =
      settingsHeaderCode magic version) :
    (settings_init defaults flashOffset flashSize magic version
        flash).1.configData.entries =
      some (((recordsOf flash (defaults.length + 1) 0).takeWhile
          validRecordB).foldl replaceFirstMatch
        (settingsLoadDefaultEntries
          (sentinelEntry (settingsHeaderCode magic version) :: defaults))) ∧
    ∀ (e : SettingsConfigEntry) (table : List SettingsConfigEntry),
      (table.all fun t => !keyMatch t.key e.key) = true →
      replaceFirstMatch table e = table := by
  refine ⟨?_, fun e table h => replaceFirstMatch_no_key e table h⟩
  simp only [settings_init]
  rw [settingsLoadAllEntries_match _ _ _ _ hmagic]
  rw [show (sentinelEntry (settingsHeaderCode magic version) ::
      defaults).length = defaults.length + 1 by simp]
  rw [scanFlashEntries_eq_scanList, scanList_eq_foldl]

/-! ## The sentinel is never exposed through the public API -/

/-- The scan preserves non-emptiness of the table and the key class of its
head entry: overwrites replace an entry by one with a matching key. -/
theorem scanList_head_keyClass :
    ∀ (rs : List SettingsConfigEntry) (h : SettingsConfigEntry) (t),
      ∃ h2 t2, scanList rs (h :: t) = h2 :: t2 ∧
        keyMatch h2.key h.key = true := by
  intro rs
  induction rs with
  | nil => intro h t; exact ⟨h, t, rfl, keyMatch_refl _⟩
  | cons r rs ih =>
    intro h t
    rw [scanList_cons]
    by_cases hv : validRecordB r = true
    · rw [if_pos hv]
      by_cases hm : keyMatch h.key r.key = true
      · rw [show replaceFirstMatch (h :: t) r = r :: t by
          simp [replaceFirstMatch, hm]]
        obtain ⟨h2, t2, heq, hk⟩ := ih r t
        exact ⟨h2, t2, heq,
          keyMatch_trans hk (by rw [keyMatch_symm]; exact hm)⟩
      · rw [show replaceFirstMatch (h :: t) r =
            h :: replaceFirstMatch t r by simp [replaceFirstMatch, hm]]
        exact ih h _
    · rw [if_neg hv]
      exact ⟨h, t, rfl, keyMatch_refl _⟩

/-- Every context built by `settings_init` has a non-empty table whose first
entry carries the reserved sentinel key. -/
theorem settings_init_head_sentinel
    (defaults : List SettingsConfigEntry)
    (flashOffset flashSize magic version : Nat) (flash : Flash) :
    ∃ h t, (settings_init defaults flashOffset flashSize magic version
        flash).1.configData.entries = some (h :: t) ∧
      keyMatch h.key SETTINGS_MAGICVERSION_KEY = true := by
  have hload : settingsLoadDefaultEntries
      (sentinelEntry (settingsHeaderCode magic version) :: defaults) =
      sentinelEntry (settingsHeaderCode magic version) ::
        settingsLoadDefaultEntries defaults := by
    have h1 : (sentinelEntry (settingsHeaderCode magic
        version)).key.isEmpty = false := rfl
    have h2 : checkTypeFormat (sentinelEntry (settingsHeaderCode magic
        version)).dataType = 0 := rfl
    have h3 : checkKeyFormat (sentinelEntry (settingsHeaderCode magic
        version)).key = 0 := rfl
    simp [settingsLoadDefaultEntries, h1, h2, h3]
  by_cases hm : strtoul10 ((flash 0).value.take SETTINGS_MAX_VALUE_LENGTH) =
      settingsHeaderCode magic version
  · simp only [settings_init]
    rw [settingsLoadAllEntries_match _ _ _ _ hm, hload]
    rw [show ((0 : Int), scanFlashEntries flash
        (sentinelEntry (settingsHeaderCode magic version) ::
          defaults).length 0
        (sentinelEntry (settingsHeaderCode magic version) ::
          settingsLoadDefaultEntries defaults)).2 = scanFlashEntries flash
        (sentinelEntry (settingsHeaderCode magic version) ::
          defaults).length 0
        (sentinelEntry (settingsHeaderCode magic version) ::
          settingsLoadDefaultEntries defaults) from rfl]
    rw [scanFlashEntries_eq_scanList]
    obtain ⟨h2, t2, heq, hk⟩ := scanList_head_keyClass
      (recordsOf flash (sentinelEntry (settingsHeaderCode magic version) ::
        defaults).length 0)
      (sentinelEntry (settingsHeaderCode magic version))
      (settingsLoadDefaultEntries defaults)
    exact ⟨h2, t2, by rw [heq], hk⟩
  · simp only [settings_init]
    rw [settingsLoadAllEntries_mismatch _ _ _ _ hm, hload]
    exact ⟨sentinelEntry (settingsHeaderCode magic version),
      settingsLoadDefaultEntries defaults, rfl, keyMatch_refl _⟩

/-- A successful lookup returns an entry whose key matches the query. -/
theorem findEntryList_key (k : List Char) :
    ∀ (es : List SettingsConfigEntry) (e : SettingsConfigEntry),
      findEntryList es k = some e → keyMatch e.key k = true := by
  intro es
  induction es with
  | nil => intro e h; cases h
  | cons x xs ih =>
    intro e h
    by_cases hm : keyMatch x.key k = true
    · simp only [findEntryList, hm, if_true, Option.some.injEq] at h
      rw [← h]; exact hm
    · simp only [findEntryList, hm, if_false] at h
      · exact ih e h

/-- `settingsUpdateEntry` on a key not matching the head entry's key leaves
the head entry in place. -/
theorem settingsUpdateEntry_preserves_head
    (ctx : SettingsContext) (k : List Char) (ty : Nat) (val : List Char)
    (h0 : SettingsConfigEntry) (t0 : List SettingsConfigEntry)
    (hent : ctx.configData.entries = some (h0 :: t0))
    (hm : keyMatch h0.key k = false) :
    ∀ p, settingsUpdateEntry (some ctx) k ty val = some p →
      ∃ c2, p.2 = some c2 ∧
        (c2.configData.entries.getD []).head? =
          (ctx.configData.entries.getD []).head? := by
  intro p hp
  by_cases hck : checkKeyFormat k = 0
  · by_cases hct : checkTypeFormat ty = 0
    · rw [show settingsUpdateEntry (some ctx) k ty val =
          some ((updateEntryInTable k ty val (h0 :: t0)).1,
            some { ctx with
                   configData := { magic := ctx.configData.magic
                                   entries := some (updateEntryInTable k ty
                                     val (h0 :: t0)).2 } }) by
        simp [settingsUpdateEntry, hck, hct, hent]] at hp
      rw [show updateEntryInTable k ty val (h0 :: t0) =
          ((updateEntryInTable k ty val t0).1,
            h0 :: (updateEntryInTable k ty val t0).2) by
        simp [updateEntryInTable, hm]] at hp
      cases hp
      exact ⟨_, rfl, by simp [hent]⟩
    · rw [show settingsUpdateEntry (some ctx) k ty val =
          some (-1, some ctx) by simp [settingsUpdateEntry, hck, hct]] at hp
      cases hp
      exact ⟨ctx, rfl, rfl⟩
  · rw [show settingsUpdateEntry (some ctx) k ty val =
        some (-1, some ctx) by simp [settingsUpdateEntry, hck]] at hp
    cases hp
    exact ⟨ctx, rfl, rfl⟩

/-- Claim C4: on every context produced by `settings_init`, the first
logical entry carries the reserved sentinel key, and the public API applied
to an application key (one not matching the reserved key) never returns the
sentinel through `find` and never mutates the first entry through any of
the three puts. -/
theorem sentinel_never_exposed
    (defaults : List SettingsConfigEntry)
    (flashOffset flashSize magic version : Nat) (flash : Flash)
    (k : List Char) (b : Bool) (v : List Char) (z : Int)
    (hk : keyMatch k SETTINGS_MAGICVERSION_KEY = false) :
    (∃ h t, (settings_init defaults flashOffset flashSize magic version
        flash).1.configData.entries = some (h :: t) ∧
      keyMatch h.key SETTINGS_MAGICVERSION_KEY = true) ∧
    (∀ e, settings_find_entry
        (some (settings_init defaults flashOffset flashSize magic version
          flash).1) k = some e →
      keyMatch e.key SETTINGS_MAGICVERSION_KEY = false) ∧
    (∀ p, settings_put_bool
        (some (settings_init defaults flashOffset flashSize magic version
          flash).1) k b = some p →
      ∃ c2, p.2 = some c2 ∧
        (c2.configData.entries.getD []).head? =
          (((settings_init defaults flashOffset flashSize magic version
            flash).1).configData.entries.getD []).head?) ∧
    (∀ p, settings_put_string
        (some (settings_init defaults flashOffset flashSize magic version
          flash).1) k (some v) = some p →
      ∃ c2, p.2 = some c2 ∧
        (c2.configData.entries.getD []).head? =
          (((settings_init defaults flashOffset flashSize magic version
            flash).1).configData.entries.getD []).head?) ∧
    (∀ p, settings_put_integer
        (some (settings_init defaults flashOffset flashSize magic version
          flash).1) k z = some p →
      ∃ c2, p.2 = some c2 ∧
        (c2.configData.entries.getD []).head? =
          (((settings_init defaults flashOffset flashSize magic version
            flash).1).configData.entries.getD []).head?) := by
  obtain ⟨h0, t0, hent, hhead⟩ := settings_init_head_sentinel defaults
    flashOffset flashSize magic version flash
  have hm : keyMatch h0.key k = false := by
    cases hm2 : keyMatch h0.key k
    · rfl
    · have hkh : keyMatch k h0.key = true := by
        rw [keyMatch_symm]; exact hm2
      rw [keyMatch_trans hkh hhead] at hk
      cases hk
  refine ⟨⟨h0, t0, hent, hhead⟩, ?_, ?_, ?_, ?_⟩
  · intro e hfind
    by_cases hck : checkKeyFormat k = 0
    · have hek : keyMatch e.key k = true := by
        apply findEntryList_key k _ e
        simpa [settings_find_entry, hck] using hfind
      cases heMV : keyMatch e.key SETTINGS_MAGICVERSION_KEY
      · rfl
      · have hke : keyMatch k e.key = true := by
          rw [keyMatch_symm]; exact hek
        rw [keyMatch_trans hke heMV] at hk
        cases hk
    · simp [settings_find_entry, hck] at hfind
  · exact fun p hp => settingsUpdateEntry_preserves_head _ k _ _ h0 t0 hent
      hm p hp
  · exact fun p hp => settingsUpdateEntry_preserves_head _ k _ _ h0 t0 hent
      hm p hp
  · exact fun p hp => settingsUpdateEntry_preserves_head _ k _ _ h0 t0 hent
      hm p hp

/-! ## Witnesses and counterexamples at concrete inputs -/

/-- Witness for the round-trip theorem at a concrete saved table. -/
theorem save_then_init_roundtrip_witness :
    validDefaultTable [entryTEST1, entryTEST2] = true ∧
    (settings_init [entryTEST1, entryTEST2] 0 4096 1 1
        (settings_save (some roundtripCtx) true flashAllErased
          flashAllErased).2).1.configData.entries = some roundtripTable :=
  ⟨by decide,
   (save_then_init_roundtrip [entryTEST1, entryTEST2] roundtripTable 1 1 0
      4096 true flashAllErased flashAllErased roundtripCtx (by decide)
      (by decide) (by decide) (by decide) (by decide) (by decide)).2.1⟩

/-- Counterexample to claim C1 as stated: a region can hand the context a
sentinel whose stored text no longer parses to the header code; the next
`save` persists it, the fresh `init` then rejects the header and the key
`TEST1`, present after the save, maps to its default again instead of the
value at the moment of the save. -/
theorem roundtrip_counterexample :
    validDefaultTable [entryTEST1, entryTEST2] = true ∧
    hostileSaved.1 = 0 ∧
    (settings_find_entry (some hostileCtx) keyTEST1).isSome = true ∧
    settings_find_entry (some hostileCtx2) keyTEST1 ≠
      settings_find_entry (some hostileCtx) keyTEST1 := by
  decide

/-- Witness for the last-record-wins merge theorem. -/
theorem merge_last_persisted_record_wins_witness :
    strtoul10 ((duplicateKeyFlash 0).value.take SETTINGS_MAX_VALUE_LENGTH) =
      65537 ∧
    findEntryList (settingsLoadAllEntries 65537 duplicateKeyFlash
        (sentinelEntry 65537 :: [entryTEST1, entryTEST2]) 32).2 keyTEST1 =
      some ⟨"TEST1".data, 1, "2".data⟩ :=
  ⟨by decide,
   (merge_last_persisted_record_wins 65537 32 duplicateKeyFlash
      (sentinelEntry 65537 :: [entryTEST1, entryTEST2]) keyTEST1
      ⟨"TEST1".data, 1, "2".data⟩
      [⟨"MAGICVERSION".data, 0, "65537".data⟩, ⟨"TEST1".data, 1, "1".data⟩]
      [] (by decide) (by decide) (by decide) (by decide) (by decide)).2⟩

/-- Counterexample to claim C2 as stated: the record `(TEST1, "1")` is
validly scanned (header matches, `TEST1` is a default key), yet the loaded
entry for `TEST1` is not that record — a later record for the same key
overwrote it. -/
theorem merge_first_record_loses_counterexample :
    strtoul10 ((duplicateKeyFlash 0).value.take SETTINGS_MAX_VALUE_LENGTH) =
      65537 ∧
    (⟨"TEST1".data, 1, "1".data⟩ : SettingsConfigEntry) ∈
      (recordsOf duplicateKeyFlash
        (sentinelEntry 65537 :: [entryTEST1, entryTEST2]).length
        0).takeWhile validRecordB ∧
    (∃ e ∈ settingsLoadDefaultEntries
        (sentinelEntry 65537 :: [entryTEST1, entryTEST2]),
      keyMatch e.key keyTEST1 = true) ∧
    findEntryList (settingsLoadAllEntries 65537 duplicateKeyFlash
        (sentinelEntry 65537 :: [entryTEST1, entryTEST2]) 32).2 keyTEST1 ≠
      some ⟨"TEST1".data, 1, "1".data⟩ := by
  decide

/-- Witness for the header-mismatch fallback theorem on an erased region. -/
theorem header_mismatch_yields_defaults_witness :
    (strtoul10 ((flashAllErased 0).value.take SETTINGS_MAX_VALUE_LENGTH) ≠
      settingsHeaderCode 1 1) ∧
    (settings_init [entryTEST1] 0 4096 1 1
        flashAllErased).1.configData.entries =
      some (sentinelEntry (settingsHeaderCode 1 1) :: [entryTEST1]) :=
  ⟨by decide,
   header_mismatch_yields_defaults [entryTEST1] 0 4096 1 1 flashAllErased
     (by decide) (by decide)⟩

/-- Witness for the sentinel-exposure theorem at the application key
`TEST1`. -/
theorem sentinel_never_exposed_witness :
    keyMatch keyTEST1 SETTINGS_MAGICVERSION_KEY = false ∧
    (∃ h t, (settings_init [entryTEST1] 0 4096 1 1
        flashAllErased).1.configData.entries = some (h :: t) ∧
      keyMatch h.key SETTINGS_MAGICVERSION_KEY = true) :=
  ⟨by decide,
   (sentinel_never_exposed [entryTEST1] 0 4096 1 1 flashAllErased keyTEST1
      true ("Y".data) 5 (by decide)).1⟩

/-- Witness for the missing-key put theorem at key `MISSING`. -/
theorem put_missing_key_not_found_witness :
    (checkKeyFormat ("MISSING".data) = 0 ∧
      ((roundtripCtx.configData.entries.getD []).all
        fun e => !keyMatch e.key ("MISSING".data)) = true) ∧
    settings_put_integer (some roundtripCtx) ("MISSING".data) 5 =
      some (-1, some roundtripCtx) :=
  ⟨⟨by decide, by decide⟩,
   (put_missing_key_not_found roundtripCtx ("MISSING".data) true ("Y".data)
      5 (by decide) (by decide)).2.2⟩

/-- Witness for the scan-bound theorem on a region with a matching header. -/
theorem load_scan_bound_and_termination_witness :
    strtoul10 ((secondRecordFlash 0).value.take SETTINGS_MAX_VALUE_LENGTH) =
      settingsHeaderCode 1 1 ∧
    (settings_init [entryTEST1] 0 4096 1 1
        secondRecordFlash).1.configData.entries =
      some (((recordsOf secondRecordFlash ([entryTEST1].length + 1)
          0).takeWhile validRecordB).foldl replaceFirstMatch
        (settingsLoadDefaultEntries
          (sentinelEntry (settingsHeaderCode 1 1) :: [entryTEST1]))) :=
  ⟨by decide,
   (load_scan_bound_and_termination [entryTEST1] 0 4096 1 1
      secondRecordFlash (by decide)).1⟩

/-- Counterexample to claim C7 as stated: with a single default entry
(`defaultEntryCount = 1`), two regions agreeing on record 0 but differing
from record 1 on load differently — the scan reads a second record, so it
performs more than `defaultEntryCount` iterations. -/
theorem load_scan_reads_beyond_default_count_counterexample :
    secondRecordFlash 0 = headerOnlyFlash 0 ∧
    settingsLoadAllEntries 65537 secondRecordFlash
        (sentinelEntry 65537 :: [entryTEST1]) 32 ≠
      settingsLoadAllEntries 65537 headerOnlyFlash
        (sentinelEntry 65537 :: [entryTEST1]) 32 ∧
    findEntryList (settingsLoadAllEntries 65537 secondRecordFlash
        (sentinelEntry 65537 :: [entryTEST1]) 32).2 keyTEST1 =
      some ⟨"TEST1".data, 1, "7".data⟩ := by
  decide

/-- Witness for the invalid-key rejection theorem at a lowercase key. -/
theorem invalid_key_rejected_witness :
    (("lower".data : List Char) = [] ∨
      ∃ c ∈ ("lower".data : List Char), isValidKeyChar c = false) ∧
    settings_find_entry (some roundtripCtx) ("lower".data) = none :=
  ⟨by decide,
   (invalid_key_rejected roundtripCtx ("lower".data) true ("Y".data) 5
      (by decide)).2.1⟩

/-- Counterexample to claim C5 as stated: on an erased region (header
mismatch) `settings_init` loads the two fallback entries into the context
but returns the failure status `-1` instead of the informational live-entry
count 2. -/
theorem init_reports_header_mismatch_counterexample :
    (settings_init [entryTEST1] 0 4096 1 1 flashAllErased).2 = -1 ∧
    ((settings_init [entryTEST1] 0 4096 1 1
        flashAllErased).1.configData.entries.getD []).length = 2 := by
  decide

/-- Witness for the NULL-guard theorem at the key `TEST1`. -/
theorem null_context_guards_witness :
    checkKeyFormat keyTEST1 = 0 ∧
    settings_put_integer none keyTEST1 7 = none :=
  ⟨by decide,
   (null_context_guards true flashAllErased flashAllErased keyTEST1 true
      ("Y".data) 7 (by decide)).2.2.2.2.2.2.2⟩

end RPSettings
